import Mathlib

/-!
Verification of the floor-plan geometry module of `floor-plan-editor-v2.js`.

Coordinates are embedded as exact rationals (`ℚ`).  The source's JavaScript
numbers are IEEE doubles; every concrete value appearing in the claims was
checked to behave identically under exact rational arithmetic (for instance
`2.345 * 100` evaluates to `234.50000000000003` in doubles and to `234.5`
exactly, and both round to `235`).

Euclidean distances (`Math.sqrt`) are embedded through squared distances:
for a nonnegative threshold `t`, `sqrt d < t ↔ d < t^2`, so every comparison
the source makes on a distance is made here on the squared distance against
the squared threshold.
-/

namespace AeroNexa

/-- A 2D point in canvas (pixel) coordinates, as in the `{x, y}` objects of
the source. -/
@[ext]
structure Point where
  x : ℚ
  y : ℚ
deriving DecidableEq

/-- A rectangle room as created by the rectangle tool in `setupRoomDrawing`
(`mouseup` handler).  The source also stores a clock-generated `id` and
`sensorData`/`deviceId` fields (both `null` at creation); those carry no
geometric content and are omitted. -/
structure Room where
  x : ℚ
  y : ℚ
  width : ℚ
  height : ℚ
  name : String
  status : String
deriving DecidableEq

/-- Globals of the editor relevant to snapping: `snapToGrid` flag and
`gridSize` (20 px by default).  `snapToGridCoordinate` reads them; here they
are explicit parameters. `Math.round` in JavaScript rounds half toward `+∞`,
which is exactly Mathlib's `round` on `ℚ`. -/
def snapToGridCoordinate (snapToGrid : Bool) (gridSize : ℚ) (value : ℚ) : ℚ :=
  if !snapToGrid then value
  else (round (value / gridSize) : ℤ) * gridSize

/-- `const pixelsPerMeter = 50`. -/
def pixelsPerMeter : ℚ := 50

/-- `const metersPerPixel = 1 / pixelsPerMeter`. -/
def metersPerPixel : ℚ := 1 / pixelsPerMeter

/-- `pixelsToMeters(pixels)`. -/
def pixelsToMeters (pixels : ℚ) : ℚ :=
  pixels * metersPerPixel

/-- Left-pad a digit string with zeros to width `k` (used to render the
fractional part of a decimal number). -/
def padZeros (s : String) (k : ℕ) : String :=
  if s.length < k then String.mk (List.replicate (k - s.length) '0') ++ s else s

/-- Render the nonnegative number `n / 10^k` the way JavaScript stringifies
such a number: trailing fractional zeros dropped, no decimal point when the
value is integral. -/
def decimalStringNat : ℕ → ℕ → String
  | n, 0 => toString n
  | n, (k+1) =>
    if n % 10 = 0 then decimalStringNat (n / 10) k
    else toString (n / 10 ^ (k+1)) ++ "." ++ padZeros (toString (n % 10 ^ (k+1))) (k+1)

/-- Render `n / 10^k` (`n : ℤ`) the way JavaScript stringifies it.
(`-0` stringifies as `"0"`, matching `n = 0` here.) -/
def decimalString (n : ℤ) (k : ℕ) : String :=
  if n < 0 then "-" ++ decimalStringNat n.natAbs k else decimalStringNat n.natAbs k

/-- `formatMeasurement(meters)`: under 1 m, `Math.round(meters*100*10)/10`
centimeters; otherwise `Math.round(meters*100)/100` meters. The division by
10 (resp. 100) followed by stringification is rendered by `decimalString`. -/
def formatMeasurement (meters : ℚ) : String :=
  if meters < 1 then
    decimalString (round (meters * 100 * 10)) 1 ++ " cm"
  else
    decimalString (round (meters * 100)) 2 ++ " m"

/-- The size label built by `updateRoomMeasurement`:
`` `${formatMeasurement(widthMeters)} × ${formatMeasurement(heightMeters)}` ``. -/
def roomSizeLabel (width height : ℚ) : String :=
  formatMeasurement (pixelsToMeters width) ++ " × " ++ formatMeasurement (pixelsToMeters height)

/-- Squared Euclidean distance.  The source's `calculateDistance` returns
`Math.sqrt(dx*dx + dy*dy)`; all uses compare it against a nonnegative
threshold, which is equivalent to comparing this square against the squared
threshold. -/
def calculateDistanceSq (x1 y1 x2 y2 : ℚ) : ℚ :=
  (x2 - x1) * (x2 - x1) + (y2 - y1) * (y2 - y1)

/-- `isPointClose(x1, y1, x2, y2, threshold = 15)`: source tests
`calculateDistance(...) < threshold`; embedded as the equivalent squared
comparison (the threshold is the nonnegative constant 15 at every call
site). -/
def isPointClose (x1 y1 x2 y2 : ℚ) (threshold : ℚ := 15) : Bool :=
  decide (calculateDistanceSq x1 y1 x2 y2 < threshold * threshold)

/-- One iteration of the ray-casting loop of `isPointInPolygon`: the pair
`e = (points[i], points[j])` with `j` the predecessor index.  In JavaScript
the division is never reached with a zero divisor because `&&`
short-circuits when `(yi > y) !== (yj > y)` is false (which covers
`yi = yj`); in `ℚ` division is total, so the same guarded expression is
used directly. -/
def edgeCross (x y : ℚ) (e : Point × Point) : Bool :=
  (decide (e.1.y > y) != decide (e.2.y > y)) &&
    decide (x < (e.2.x - e.1.x) * (y - e.1.y) / (e.2.y - e.1.y) + e.1.x)

/-- The index pairs `(i, j)` of the source loop
`for (let i = 0, j = points.length - 1; i < points.length; j = i++)`,
realised as the list of `(points[i], points[j])` with `j = i - 1 mod n`:
each element paired with its predecessor, the first paired with the last. -/
def rayPairs : List Point → List (Point × Point)
  | [] => []
  | p :: t => (p :: t).zip (t.getLastD p :: p :: t)

/-- `isPointInPolygon(x, y, points)`: ray casting, toggling `inside` at each
crossing edge, in source iteration order. -/
def isPointInPolygon (x y : ℚ) (points : List Point) : Bool :=
  (rayPairs points).foldl (fun inside e => if edgeCross x y e then !inside else inside) false

/-- `Math.min(...l)` for a nonempty list (the source only applies it to
nonempty coordinate lists). -/
def listMin : List ℚ → ℚ
  | [] => 0
  | a :: t => t.foldl min a

/-- `Math.max(...l)` for a nonempty list. -/
def listMax : List ℚ → ℚ
  | [] => 0
  | a :: t => t.foldl max a

/-- The consecutive edge pairs `(l[i], l[i+1])`, `0 ≤ i < l.length - 1`,
iterated by the shoelace loop of `calculatePolygonCentroid`. -/
def adjPairs (l : List Point) : List (Point × Point) :=
  l.zip l.tail

/-- The cross term `p1.x * p2.y - p2.x * p1.y` of one shoelace edge. -/
def crossTerm (e : Point × Point) : ℚ :=
  e.1.x * e.2.y - e.2.x * e.1.y

/-- Sum of the shoelace cross terms (the source's `area` accumulator before
halving). -/
def crossSum (l : List Point) : ℚ :=
  ((adjPairs l).map crossTerm).sum

/-- Sum of the x first-moment terms `(p1.x + p2.x) * cross`. -/
def momentXSum (l : List Point) : ℚ :=
  ((adjPairs l).map (fun e => (e.1.x + e.2.x) * crossTerm e)).sum

/-- Sum of the y first-moment terms `(p1.y + p2.y) * cross`. -/
def momentYSum (l : List Point) : ℚ :=
  ((adjPairs l).map (fun e => (e.1.y + e.2.y) * crossTerm e)).sum

/-- The single accumulation loop of `calculatePolygonCentroid`, carrying
`(area, centroidX, centroidY)` exactly as the source does. -/
def shoelace (l : List Point) : ℚ × ℚ × ℚ :=
  (adjPairs l).foldl
    (fun acc e =>
      (acc.1 + crossTerm e, acc.2.1 + (e.1.x + e.2.x) * crossTerm e,
        acc.2.2 + (e.1.y + e.2.y) * crossTerm e))
    (0, 0, 0)

/-- `closedPoints`: the source appends a copy of the first point unless the
first and last points already agree in both coordinates. -/
def closeRing (points : List Point) : List Point :=
  match points.head?, points.getLast? with
  | some h, some l => if h.x ≠ l.x ∨ h.y ≠ l.y then points ++ [h] else points
  | _, _ => points

/-- The arithmetic mean of a point list (the source's "simple average"
fallback; only ever used on nonempty input). -/
def arithmeticMean (points : List Point) : Point :=
  ⟨(points.map Point.x).sum / points.length, (points.map Point.y).sum / points.length⟩

/-- The signed shoelace area `area / 2` computed by
`calculatePolygonCentroid` over the closed ring. -/
def signedArea (points : List Point) : ℚ :=
  crossSum (closeRing points) / 2

/-- The area-weighted centroid (moment sums divided by `6 * signedArea`),
before the interior-correction step. -/
def areaWeightedCentroid (points : List Point) : Point :=
  ⟨momentXSum (closeRing points) / (6 * signedArea points),
    momentYSum (closeRing points) / (6 * signedArea points)⟩

/-- The interior-correction search of `calculatePolygonCentroid`, entered
when the computed centroid `(cX, cY)` fails the point-in-polygon test:
(a) sample the segment from the bounding-box center to the centroid
(source: `for (let t = 0; t <= 1; t += 0.1)`, eleven samples; the floating
`t` accumulates to `0.09999...` steps — modelled as the rationals `k/10`,
`k = 0..10`; the `t = 1` endpoint is the failed centroid itself so the
difference is unobservable); (b) the bounding-box center; (c) the first
edge midpoint inside; otherwise return the outside centroid unchanged. -/
def interiorSearch (points : List Point) (cX cY : ℚ) : Point :=
  let minX := listMin (points.map Point.x)
  let maxX := listMax (points.map Point.x)
  let minY := listMin (points.map Point.y)
  let maxY := listMax (points.map Point.y)
  let bX := (minX + maxX) / 2
  let bY := (minY + maxY) / 2
  let samples := (List.range 11).map fun k =>
    (bX + (cX - bX) * ((k : ℚ) / 10), bY + (cY - bY) * ((k : ℚ) / 10))
  match samples.find? (fun s => isPointInPolygon s.1 s.2 points) with
  | some s => ⟨s.1, s.2⟩
  | none =>
    if isPointInPolygon bX bY points then ⟨bX, bY⟩
    else
      let mids := (List.range points.length).map fun i =>
        let p1 := points.getD i ⟨0, 0⟩
        let p2 := points.getD ((i + 1) % points.length) ⟨0, 0⟩
        ((p1.x + p2.x) / 2, (p1.y + p2.y) / 2)
      match mids.find? (fun s => isPointInPolygon s.1 s.2 points) with
      | some s => ⟨s.1, s.2⟩
      | none => ⟨cX, cY⟩

/-- `calculatePolygonCentroid(points)` for a non-null `points` array,
transcribed from the source: degenerate-count fallback, shoelace
accumulation over the closed ring, near-zero-area fallback, and the
interior-correction step. -/
def calculatePolygonCentroid (points : List Point) : Point :=
  if points.length < 3 then
    if 0 < points.length then arithmeticMean points
    else ⟨0, 0⟩
  else
    let closedPoints := closeRing points
    let s := shoelace closedPoints
    let area := s.1 / 2
    if |area| < 1 / 1000 then arithmeticMean points
    else
      let cX := s.2.1 / (6 * area)
      let cY := s.2.2 / (6 * area)
      if isPointInPolygon cX cY points then ⟨cX, cY⟩
      else interiorSearch points cX cY

/-- `calculatePolygonCentroid` including the `!points` null guard:
a `null`/`undefined` argument falls into the first branch with the inner
`points && points.length > 0` test false, returning `{x: 0, y: 0}`. -/
def calculatePolygonCentroidOpt : Option (List Point) → Point
  | none => ⟨0, 0⟩
  | some points => calculatePolygonCentroid points

/-- Division instrumented to fail on a zero divisor (used to express that
the source's divisions never divide by zero). -/
def checkedDiv (a b : ℚ) : Option ℚ :=
  if b = 0 then none else some (a / b)

/-- `calculatePolygonCentroid` with its two data-dependent divisions — by
`points.length` in the mean fallback and by `6 * area` for the centroid —
replaced by `checkedDiv`.  (The remaining divisions are by the nonzero
literals 2, 10 and 6·area-guarded values, and the guarded division inside
`isPointInPolygon` is never reached with a zero divisor; see `edgeCross`.) -/
def calculatePolygonCentroidChecked (points : List Point) : Option Point :=
  if points.length < 3 then
    if 0 < points.length then do
      let mx ← checkedDiv (points.map Point.x).sum points.length
      let my ← checkedDiv (points.map Point.y).sum points.length
      some ⟨mx, my⟩
    else some ⟨0, 0⟩
  else
    let closedPoints := closeRing points
    let s := shoelace closedPoints
    let area := s.1 / 2
    if |area| < 1 / 1000 then do
      let mx ← checkedDiv (points.map Point.x).sum points.length
      let my ← checkedDiv (points.map Point.y).sum points.length
      some ⟨mx, my⟩
    else do
      let cX ← checkedDiv s.2.1 (6 * area)
      let cY ← checkedDiv s.2.2 (6 * area)
      if isPointInPolygon cX cY points then some ⟨cX, cY⟩
      else some (interiorSearch points cX cY)

/-- The rectangle-tool drawing state of `setupRoomDrawing`: the captured
`roomStartPoint` and the module-level `rooms` array.  (The temporary SVG
rectangle and measurement overlay are rendering artifacts with no bearing
on the claims and are not modelled.) -/
structure RectState where
  roomStartPoint : Option Point
  rooms : List Room
deriving DecidableEq

/-- The `mousedown` handler in rectangle mode: on the first press the
snapped coordinates become `roomStartPoint`. -/
def rectMouseDown (snapToGrid : Bool) (gridSize : ℚ) (st : RectState) (raw : Point) : RectState :=
  let x := snapToGridCoordinate snapToGrid gridSize raw.x
  let y := snapToGridCoordinate snapToGrid gridSize raw.y
  match st.roomStartPoint with
  | none => { st with roomStartPoint := some ⟨x, y⟩ }
  | some _ => st

/-- The `mouseup` handler in rectangle mode: snap the release point,
commit a new `Room` when `width > 20 && height > 20` (pushing it onto
`rooms`), otherwise discard the draft; either way clear `roomStartPoint`.
The source's clock-generated `id` is omitted (see `Room`). -/
def rectMouseUp (snapToGrid : Bool) (gridSize : ℚ) (st : RectState) (raw : Point) : RectState :=
  match st.roomStartPoint with
  | none => st
  | some s =>
    let x := snapToGridCoordinate snapToGrid gridSize raw.x
    let y := snapToGridCoordinate snapToGrid gridSize raw.y
    let width := |x - s.x|
    let height := |y - s.y|
    if width > 20 ∧ height > 20 then
      { roomStartPoint := none,
        rooms := st.rooms ++
          [{ x := min s.x x, y := min s.y y, width := width, height := height,
             name := "New Room", status := "good" }] }
    else
      { roomStartPoint := none, rooms := st.rooms }

/-- The `bbox` record stored on a polygon room by `completeLineRoom`. -/
structure BBox where
  minX : ℚ
  maxX : ℚ
  minY : ℚ
  maxY : ℚ
  centerX : ℚ
  centerY : ℚ
  width : ℚ
  height : ℚ
deriving DecidableEq

/-- A polygon room as created by `completeLineRoom` (clock `id` and null
sensor fields omitted as in `Room`). -/
structure PolyRoom where
  points : List Point
  bbox : BBox
  name : String
  status : String
deriving DecidableEq

/-- The line-tool drawing state: accumulated `linePoints`, the
`lineStartPoint` used for closing, the `rooms` array, and the sequence of
`showToast(message, kind)` calls surfaced to the user. -/
structure LineState where
  linePoints : List Point
  lineStartPoint : Option Point
  rooms : List PolyRoom
  toasts : List (String × String)
deriving DecidableEq

/-- `completeLineRoom`: with fewer than 3 accumulated vertices, surface a
warning toast and return with the drawing state untouched; otherwise push
the polygon room (vertex list and bounding box) and reset the line-drawing
state.  (`closedPoints` is computed by the source but only used for
rendering the SVG path.) -/
def completeLineRoom (st : LineState) : LineState :=
  if st.linePoints.length < 3 then
    { st with toasts := st.toasts ++ [("Need at least 3 points to create a room", "warning")] }
  else
    let minX := listMin (st.linePoints.map Point.x)
    let maxX := listMax (st.linePoints.map Point.x)
    let minY := listMin (st.linePoints.map Point.y)
    let maxY := listMax (st.linePoints.map Point.y)
    { linePoints := [], lineStartPoint := none,
      rooms := st.rooms ++
        [{ points := st.linePoints,
           bbox := { minX := minX, maxX := maxX, minY := minY, maxY := maxY,
                     centerX := (minX + maxX) / 2, centerY := (minY + maxY) / 2,
                     width := maxX - minX, height := maxY - minY },
           name := "New Room", status := "good" }],
      toasts := st.toasts }

/-- The `mousedown` handler in line mode: snap the click; if no polygon is
in progress, start one; otherwise close it when the click is
`isPointClose` to the start point, and else append the click as a new
vertex unless it is within 15 px of the immediately preceding vertex
(`calculateDistance(...) < 15`, embedded as the squared comparison), in
which case the click is ignored.  The source maintains
`lineStartPoint ≠ null` whenever `linePoints` is nonempty; the `none`
cases below are unreachable under that invariant and leave the state
unchanged. -/
def lineMouseDown (snapToGrid : Bool) (gridSize : ℚ) (st : LineState) (raw : Point) : LineState :=
  let x := snapToGridCoordinate snapToGrid gridSize raw.x
  let y := snapToGridCoordinate snapToGrid gridSize raw.y
  if st.linePoints.isEmpty then
    { st with linePoints := [⟨x, y⟩], lineStartPoint := some ⟨x, y⟩ }
  else
    match st.lineStartPoint with
    | some s =>
      if isPointClose x y s.x s.y then completeLineRoom st
      else
        match st.linePoints.getLast? with
        | some lastPoint =>
          if calculateDistanceSq lastPoint.x lastPoint.y x y < 15 * 15 then st
          else { st with linePoints := st.linePoints ++ [⟨x, y⟩] }
        | none => st
    | none => st

/-- Twice the signed area of triangle `o p q` (orientation test), used only
to state what a "valid simple polygon" is for claim C1. -/
def orient (o p q : Point) : ℚ :=
  (p.x - o.x) * (q.y - o.y) - (p.y - o.y) * (q.x - o.x)

/-- `q` lies on the closed segment `a b`. -/
def onSeg (a b q : Point) : Bool :=
  decide (orient a b q = 0) &&
    decide (min a.x b.x ≤ q.x) && decide (q.x ≤ max a.x b.x) &&
    decide (min a.y b.y ≤ q.y) && decide (q.y ≤ max a.y b.y)

/-- Closed segments `a b` and `c d` intersect (standard orientation test
with collinear/on-segment cases). -/
def segIntersect (a b c d : Point) : Bool :=
  let d1 := orient c d a
  let d2 := orient c d b
  let d3 := orient a b c
  let d4 := orient a b d
  ((decide (d1 > 0) && decide (d2 < 0) || decide (d1 < 0) && decide (d2 > 0)) &&
    (decide (d3 > 0) && decide (d4 < 0) || decide (d3 < 0) && decide (d4 > 0)))
  || onSeg c d a || onSeg c d b || onSeg a b c || onSeg a b d

/-- A valid simple polygon in the usual sense: at least 3 pairwise-distinct
vertices, and no two non-adjacent boundary edges meet (edges `i` and `j`
sharing an endpoint, i.e. `j = i ± 1 mod n`, are exempt).  This is the
standard notion the spec's phrase "valid simple polygon" denotes; it is
not a function of the source, only the hypothesis of claim C1. -/
def isSimplePolygon (points : List Point) : Bool :=
  let n := points.length
  decide (3 ≤ n) && decide points.Nodup &&
    ((List.range n).all fun i => (List.range n).all fun j =>
      if i < j ∧ (i + 1) % n ≠ j ∧ (j + 1) % n ≠ i then
        !segIntersect (points.getD i ⟨0, 0⟩) (points.getD ((i + 1) % n) ⟨0, 0⟩)
          (points.getD j ⟨0, 0⟩) (points.getD ((j + 1) % n) ⟨0, 0⟩)
      else true)

/-! ### Shared helper lemmas -/

/-- Characterisation of `round` on `ℚ` by bounds, used to evaluate concrete
snap values. -/
theorem round_eq_of (q : ℚ) (n : ℤ) (h₁ : (n : ℚ) ≤ q + 1 / 2) (h₂ : q + 1 / 2 < n + 1) :
    round q = n := by
  rw [round_eq]
  exact Int.floor_eq_iff.mpr ⟨h₁, by exact_mod_cast h₂⟩

/-- The toggling fold of `isPointInPolygon` computes the parity of the
number of crossing edges. -/
theorem foldl_toggle_eq (q : Point × Point → Bool) (l : List (Point × Point)) (b : Bool) :
    l.foldl (fun inside e => if q e then !inside else inside) b
      = (b != decide (l.countP q % 2 = 1)) := by
  induction l generalizing b with
  | nil => simp
  | cons e t ih =>
    rw [List.foldl_cons, ih, List.countP_cons]
    cases hq : q e <;>
      rcases Nat.mod_two_eq_zero_or_one (t.countP q) with h | h <;>
        simp [hq, Nat.add_mod, h]

/-- `isPointInPolygon` as a crossing-count parity. -/
theorem isPointInPolygon_eq_parity (x y : ℚ) (points : List Point) :
    isPointInPolygon x y points = decide ((rayPairs points).countP (edgeCross x y) % 2 = 1) := by
  rw [isPointInPolygon, foldl_toggle_eq]
  cases h : decide ((rayPairs points).countP (edgeCross x y) % 2 = 1) <;> rfl

/-- Zipping ignores a right-hand tail beyond the left list's length. -/
theorem zip_append_right_of_le {α β : Type} :
    ∀ (l₁ : List α) (l₂ : List β) (y : β), l₁.length ≤ l₂.length →
      l₁.zip (l₂ ++ [y]) = l₁.zip l₂
  | [], _, _, _ => by simp
  | a :: t₁, [], y, h => by simp at h
  | a :: t₁, b :: t₂, y, h => by
    simp only [List.cons_append, List.zip_cons_cons]
    rw [zip_append_right_of_le t₁ t₂ y (Nat.le_of_succ_le_succ h)]

/-- Shifting a concatenated element through the predecessor-zip. -/
theorem zip_concat_shift {α : Type} :
    ∀ (t : List α) (c x : α),
      (t ++ [x]).zip (c :: t) = t.zip (c :: t) ++ [(x, t.getLastD c)]
  | [], c, x => by simp
  | a :: t', c, x => by
    simp only [List.cons_append, List.zip_cons_cons, List.getLastD_cons]
    rw [zip_concat_shift t' a x]

/-- `rayPairs` of a cons cell: the head is paired with the last element,
the rest with their predecessors. -/
theorem rayPairs_cons (p : Point) (t : List Point) :
    rayPairs (p :: t) = (p, t.getLastD p) :: t.zip (p :: t) := by
  simp [rayPairs, List.zip_cons_cons]

/-- `rayPairs` after appending a copy of the head: one degenerate pair
`(p, p)` plus the same pairs with the wrap-around pair moved to the end. -/
theorem rayPairs_append_head (p : Point) (t : List Point) :
    rayPairs ((p :: t) ++ [p]) = (p, p) :: (t.zip (p :: t) ++ [(p, t.getLastD p)]) := by
  show rayPairs (p :: (t ++ [p])) = _
  rw [rayPairs_cons, List.getLastD_concat]
  have h1 : (t ++ [p]).zip (p :: (t ++ [p])) = (t ++ [p]).zip (p :: t) := by
    have := zip_append_right_of_le (t ++ [p]) (p :: t) p (by simp)
    simpa using this
  rw [h1, zip_concat_shift]

/-- A degenerate edge (both endpoints equal) never toggles the ray cast. -/
theorem edgeCross_self (x y : ℚ) (p : Point) : edgeCross x y (p, p) = false := by
  simp [edgeCross]

/-- Ray casting is unchanged by explicitly closing the ring (appending a
copy of the first vertex). -/
theorem isPointInPolygon_append_head (x y : ℚ) (p : Point) (t : List Point) :
    isPointInPolygon x y ((p :: t) ++ [p]) = isPointInPolygon x y (p :: t) := by
  rw [isPointInPolygon_eq_parity, isPointInPolygon_eq_parity, rayPairs_append_head,
    rayPairs_cons]
  rw [List.countP_cons, List.countP_cons, List.countP_append, List.countP_cons]
  simp [edgeCross_self]

/-- The source's single shoelace loop computes the three edge sums. -/
theorem shoelace_eq (l : List Point) :
    shoelace l = (crossSum l, momentXSum l, momentYSum l) := by
  have key : ∀ (L : List (Point × Point)) (a b c : ℚ),
      L.foldl (fun acc e =>
        (acc.1 + crossTerm e, acc.2.1 + (e.1.x + e.2.x) * crossTerm e,
          acc.2.2 + (e.1.y + e.2.y) * crossTerm e)) (a, b, c)
        = (a + (L.map crossTerm).sum,
           b + (L.map (fun e => (e.1.x + e.2.x) * crossTerm e)).sum,
           c + (L.map (fun e => (e.1.y + e.2.y) * crossTerm e)).sum) := by
    intro L
    induction L with
    | nil => intro a b c; simp
    | cons e t ih =>
      intro a b c
      rw [List.foldl_cons, ih]
      simp [add_assoc]
  rw [shoelace, key, crossSum, momentXSum, momentYSum]
  simp

/-- Appending one point extends the shoelace edge list by one edge from the
old last vertex. -/
theorem adjPairs_concat :
    ∀ (p : Point) (t : List Point) (q : Point),
      adjPairs ((p :: t) ++ [q]) = adjPairs (p :: t) ++ [(t.getLastD p, q)]
  | p, [], q => by simp [adjPairs]
  | p, a :: t', q => by
    have ih := adjPairs_concat a t' q
    simp only [adjPairs, List.cons_append, List.zip_cons_cons, List.tail_cons] at ih ⊢
    rw [ih]
    cases t' with
    | nil => simp
    | cons b l =>
      have hb : (b :: l).getLast? = some ((b :: l).getLast (List.cons_ne_nil b l)) :=
        List.getLast?_eq_getLast (b :: l) (List.cons_ne_nil b l)
      simp [List.getLastD_eq_getLast?, List.getLast?_cons_cons, hb]

/-- Closing an already coordinate-closed ring again is the identity on the
shoelace sums: the appended edge is degenerate. -/
theorem crossSum_concat (p : Point) (t : List Point) (q : Point) :
    crossSum ((p :: t) ++ [q]) = crossSum (p :: t) + crossTerm (t.getLastD p, q) := by
  rw [crossSum, adjPairs_concat, List.map_append, List.sum_append, crossSum]
  simp

theorem momentXSum_concat (p : Point) (t : List Point) (q : Point) :
    momentXSum ((p :: t) ++ [q])
      = momentXSum (p :: t) + ((t.getLastD p).x + q.x) * crossTerm (t.getLastD p, q) := by
  rw [momentXSum, adjPairs_concat, List.map_append, List.sum_append, momentXSum]
  simp

theorem momentYSum_concat (p : Point) (t : List Point) (q : Point) :
    momentYSum ((p :: t) ++ [q])
      = momentYSum (p :: t) + ((t.getLastD p).y + q.y) * crossTerm (t.getLastD p, q) := by
  rw [momentYSum, adjPairs_concat, List.map_append, List.sum_append, momentYSum]
  simp

/-- A ring whose first point is appended at the end is recognised as closed
by `closeRing`. -/
theorem closeRing_concat_head (p : Point) (t : List Point) :
    closeRing ((p :: t) ++ [p]) = (p :: t) ++ [p] := by
  have h1 : ((p :: t) ++ [p]).head? = some p := by simp
  have h2 : (p :: (t ++ [p])).getLast? = some p := by
    rw [← List.cons_append]
    exact List.getLast?_concat _
  simp [closeRing, h1, h2]

/-! ### Claim theorems -/

/-- C7: for every value `v` and grid size `g > 0`, snapping rounds `v` to
the nearest multiple of `g` (the result is an integer multiple of `g`
within `g/2` of `v`), snapping is idempotent, and with the snap-to-grid
flag disabled `snapToGridCoordinate` is the identity. -/
theorem snap_round_idempotent_identity (v g : ℚ) (hg : 0 < g) :
    (∃ k : ℤ, snapToGridCoordinate true g v = k * g) ∧
    |snapToGridCoordinate true g v - v| ≤ g / 2 ∧
    snapToGridCoordinate true g (snapToGridCoordinate true g v) = snapToGridCoordinate true g v ∧
    snapToGridCoordinate false g v = v := by
  have hg0 : g ≠ 0 := ne_of_gt hg
  have hsnap : snapToGridCoordinate true g v = (round (v / g) : ℤ) * g := by
    rw [snapToGridCoordinate]
    rfl
  have hr : |v / g - ((round (v / g) : ℤ) : ℚ)| ≤ 1 / 2 := abs_sub_round (v / g)
  refine ⟨⟨round (v / g), hsnap⟩, ?_, ?_, by rw [snapToGridCoordinate]; rfl⟩
  · rw [hsnap]
    rw [abs_le] at hr ⊢
    have hv : v / g * g = v := div_mul_cancel₀ v hg0
    obtain ⟨h1, h2⟩ := hr
    constructor
    · nlinarith [h1, hg, hv]
    · nlinarith [h2, hg, hv]
  · rw [hsnap, snapToGridCoordinate]
    have h3 : ((round (v / g) : ℤ) : ℚ) * g / g = ((round (v / g) : ℤ) : ℚ) :=
      mul_div_cancel_right₀ _ hg0
    simp only [Bool.not_true, Bool.false_eq_true, if_false, h3, round_intCast]

/-- C7 witness: concrete instantiation at `v = 13`, `g = 20`. -/
theorem snap_round_idempotent_identity_witness :
    (0 : ℚ) < 20 ∧
      ((∃ k : ℤ, snapToGridCoordinate true 20 13 = k * 20) ∧
        |snapToGridCoordinate true 20 13 - 13| ≤ 20 / 2 ∧
        snapToGridCoordinate true 20 (snapToGridCoordinate true 20 13)
          = snapToGridCoordinate true 20 13 ∧
        snapToGridCoordinate false 20 13 = 13) :=
  ⟨by norm_num, snap_round_idempotent_identity 13 20 (by norm_num)⟩

/-- C5: `formatMeasurement` renders values under 1 m in centimeters rounded
to one decimal place with unit `cm`, values at least 1 m in meters rounded
to two decimal places with unit `m` (the rendered number is within half an
ulp of the exact value), and the three concrete examples. -/
theorem formatMeasurement_units_and_examples (meters : ℚ) :
    (meters < 1 → ∃ n : ℤ, formatMeasurement meters = decimalString n 1 ++ " cm" ∧
        |(n : ℚ) / 10 - meters * 100| ≤ 1 / 20) ∧
    (1 ≤ meters → ∃ n : ℤ, formatMeasurement meters = decimalString n 2 ++ " m" ∧
        |(n : ℚ) / 100 - meters| ≤ 1 / 200) ∧
    formatMeasurement (1 / 2) = "50 cm" ∧
    formatMeasurement (2345 / 1000) = "2.35 m" ∧
    formatMeasurement (999 / 1000) = "99.9 cm" := by
  refine ⟨?_, ?_, by with_unfolding_all decide, by with_unfolding_all decide,
    by with_unfolding_all decide⟩
  · intro h
    refine ⟨round (meters * 100 * 10), by rw [formatMeasurement, if_pos h], ?_⟩
    have hr : |meters * 100 * 10 - ((round (meters * 100 * 10) : ℤ) : ℚ)| ≤ 1 / 2 :=
      abs_sub_round (meters * 100 * 10)
    rw [abs_le] at hr ⊢
    obtain ⟨h1, h2⟩ := hr
    constructor
    · linarith
    · linarith
  · intro h
    refine ⟨round (meters * 100), by rw [formatMeasurement, if_neg (not_lt.mpr h)], ?_⟩
    have hr : |meters * 100 - ((round (meters * 100) : ℤ) : ℚ)| ≤ 1 / 2 :=
      abs_sub_round (meters * 100)
    rw [abs_le] at hr ⊢
    obtain ⟨h1, h2⟩ := hr
    constructor
    · linarith
    · linarith

/-- C5 witness: the cm clause applied at 0.5 m. -/
theorem formatMeasurement_units_and_examples_witness :
    ((1 : ℚ) / 2 < 1) ∧
      (∃ n : ℤ, formatMeasurement (1 / 2) = decimalString n 1 ++ " cm" ∧
        |(n : ℚ) / 10 - (1 / 2) * 100| ≤ 1 / 20) :=
  ⟨by norm_num, (formatMeasurement_units_and_examples (1 / 2)).1 (by norm_num)⟩

/-- C2: on release of a rectangle drag with start point `s` and snapped
release point `(x, y)`, a room is appended exactly when both extents
exceed 20 px, with the canonical min-corner/extent fields; otherwise the
rooms list is unchanged (the draft is discarded, no toast is involved in
this handler). -/
theorem rectangle_commit_rule (snapFlag : Bool) (g : ℚ) (st : RectState) (s raw : Point)
    (hstart : st.roomStartPoint = some s) (x y : ℚ)
    (hx : x = snapToGridCoordinate snapFlag g raw.x)
    (hy : y = snapToGridCoordinate snapFlag g raw.y) :
    ((|x - s.x| > 20 ∧ |y - s.y| > 20) →
      rectMouseUp snapFlag g st raw =
        { roomStartPoint := none,
          rooms := st.rooms ++
            [{ x := min s.x x, y := min s.y y, width := |x - s.x|, height := |y - s.y|,
               name := "New Room", status := "good" }] }) ∧
    ((|x - s.x| ≤ 20 ∨ |y - s.y| ≤ 20) →
      rectMouseUp snapFlag g st raw = { roomStartPoint := none, rooms := st.rooms }) := by
  subst hx hy
  constructor
  · intro h
    simp only [rectMouseUp, hstart]
    rw [if_pos h]
  · intro h
    have hneg : ¬(|snapToGridCoordinate snapFlag g raw.x - s.x| > 20 ∧
        |snapToGridCoordinate snapFlag g raw.y - s.y| > 20) := by
      rcases h with h | h
      · exact fun hc => absurd hc.1 (not_lt.mpr h)
      · exact fun hc => absurd hc.2 (not_lt.mpr h)
    simp only [rectMouseUp, hstart]
    rw [if_neg hneg]

/-- C2 witness: a 60×40 drag (committed) discharging the positive branch. -/
theorem rectangle_commit_rule_witness :
    ((|(160 : ℚ) - 100| > 20 ∧ |(140 : ℚ) - 100| > 20) →
      rectMouseUp false 20 ⟨some ⟨100, 100⟩, []⟩ ⟨160, 140⟩ =
        { roomStartPoint := none,
          rooms := [{ x := min (100 : ℚ) 160, y := min (100 : ℚ) 140,
                      width := |(160 : ℚ) - 100|, height := |(140 : ℚ) - 100|,
                      name := "New Room", status := "good" }] }) ∧
    (|(160 : ℚ) - 100| > 20 ∧ |(140 : ℚ) - 100| > 20) := by
  constructor
  · exact fun h => (rectangle_commit_rule false 20 ⟨some ⟨100, 100⟩, []⟩ ⟨100, 100⟩ ⟨160, 140⟩
      rfl 160 140 (by simp [snapToGridCoordinate]) (by simp [snapToGridCoordinate])).1 h
  · constructor <;> rw [abs_of_pos (by norm_num)] <;> norm_num

/-- C3: a closing click (within closing distance of the start point) while
fewer than 3 vertices are accumulated is rejected: the only state change is
an appended warning toast — no room is created and the vertex list and
start point are untouched. -/
theorem polygon_close_rejected_under_three (snapFlag : Bool) (g : ℚ) (st : LineState)
    (s raw : Point) (hne : st.linePoints ≠ []) (hs : st.lineStartPoint = some s)
    (hclose : isPointClose (snapToGridCoordinate snapFlag g raw.x)
        (snapToGridCoordinate snapFlag g raw.y) s.x s.y = true)
    (hlen : st.linePoints.length < 3) :
    lineMouseDown snapFlag g st raw =
      { st with toasts := st.toasts ++ [("Need at least 3 points to create a room", "warning")] } := by
  have hempty : st.linePoints.isEmpty = false := by
    cases h : st.linePoints with
    | nil => exact absurd h hne
    | cons a l => rfl
  simp only [lineMouseDown, hempty, Bool.false_eq_true, if_false, hs, hclose, if_true,
    completeLineRoom, if_pos hlen]

/-- C3 witness: two accumulated vertices, closing click at the start. -/
theorem polygon_close_rejected_under_three_witness :
    ([(⟨0, 0⟩ : Point), ⟨100, 0⟩] ≠ []) ∧
    (isPointClose (snapToGridCoordinate false 20 (1 : ℚ)) (snapToGridCoordinate false 20 (1 : ℚ))
        0 0 = true) ∧
    lineMouseDown false 20 ⟨[⟨0, 0⟩, ⟨100, 0⟩], some ⟨0, 0⟩, [], []⟩ ⟨1, 1⟩ =
      { linePoints := [⟨0, 0⟩, ⟨100, 0⟩], lineStartPoint := some ⟨0, 0⟩, rooms := [],
        toasts := [("Need at least 3 points to create a room", "warning")] } := by
  refine ⟨by simp, ?_, ?_⟩
  · norm_num [isPointClose, calculateDistanceSq, snapToGridCoordinate]
  · exact polygon_close_rejected_under_three false 20 ⟨[⟨0, 0⟩, ⟨100, 0⟩], some ⟨0, 0⟩, [], []⟩
      ⟨0, 0⟩ ⟨1, 1⟩ (by simp) rfl
      (by norm_num [isPointClose, calculateDistanceSq, snapToGridCoordinate]) (by norm_num)

/-- C6 counterexample: at the 50 px/m scale the height label of a 40 px
extent is `formatMeasurement(0.8)`, which takes the under-one-meter branch
and renders centimeters, so the size label is not `"1.2 m × 0.8 m"`. -/
theorem rectangle_scenario_label_counterexample :
    roomSizeLabel 60 40 ≠ "1.2 m × 0.8 m" := by
  with_unfolding_all decide

/-- C6 (amended): drawing a rectangle from (100,100) to (160,140) with a
20 px grid and snapping commits the room `{x:100, y:100, width:60,
height:40}`, and its size label reads `"1.2 m × 80 cm"` (the 0.8 m height
is rendered in centimeters by `formatMeasurement`). -/
theorem rectangle_scenario_commit_and_label :
    (rectMouseUp true 20 (rectMouseDown true 20 ⟨none, []⟩ ⟨100, 100⟩) ⟨160, 140⟩).rooms
        = [{ x := 100, y := 100, width := 60, height := 40,
             name := "New Room", status := "good" }] ∧
    roomSizeLabel 60 40 = "1.2 m × 80 cm" := by
  constructor
  · have h100 : snapToGridCoordinate true 20 100 = 100 := by with_unfolding_all decide
    have h160 : snapToGridCoordinate true 20 160 = 160 := by with_unfolding_all decide
    have h140 : snapToGridCoordinate true 20 140 = 140 := by with_unfolding_all decide
    norm_num [rectMouseDown, rectMouseUp, h100, h160, h140, abs_of_pos, min_def]
  · with_unfolding_all decide

/-- C8 counterexample: a click at distance exactly 15 px from the
immediately preceding vertex is appended by the source (`< 15` is false),
although the claim's "distance exceeds 15 px" is also false there. -/
theorem vertex_append_at_exact_threshold :
    (lineMouseDown false 20 ⟨[⟨0, 0⟩], some ⟨0, 0⟩, [], []⟩ ⟨15, 0⟩).linePoints
        = [⟨0, 0⟩, ⟨15, 0⟩] ∧
    ¬(calculateDistanceSq 0 0 15 0 > 15 * 15) := by
  constructor
  · norm_num [lineMouseDown, snapToGridCoordinate, isPointClose, calculateDistanceSq]
  · norm_num [calculateDistanceSq]

/-- C8 (amended): while drawing, a click strictly within 15 px of the start
point closes the polygon; otherwise it is appended as a new vertex if and
only if its distance from the immediately preceding vertex is at least
15 px (squared comparison against the same constant `15 * 15` in both
tests); a closer click is ignored and the state is unchanged. -/
theorem line_click_transitions (snapFlag : Bool) (g : ℚ) (st : LineState)
    (s lastP raw : Point) (hne : st.linePoints ≠ []) (hs : st.lineStartPoint = some s)
    (hlast : st.linePoints.getLast? = some lastP) (x y : ℚ)
    (hx : x = snapToGridCoordinate snapFlag g raw.x)
    (hy : y = snapToGridCoordinate snapFlag g raw.y) :
    (calculateDistanceSq x y s.x s.y < 15 * 15 →
      lineMouseDown snapFlag g st raw = completeLineRoom st) ∧
    (15 * 15 ≤ calculateDistanceSq x y s.x s.y →
      (calculateDistanceSq lastP.x lastP.y x y < 15 * 15 →
        lineMouseDown snapFlag g st raw = st) ∧
      (15 * 15 ≤ calculateDistanceSq lastP.x lastP.y x y →
        lineMouseDown snapFlag g st raw =
          { st with linePoints := st.linePoints ++ [⟨x, y⟩] })) := by
  subst hx hy
  have hempty : st.linePoints.isEmpty = false := by
    cases h : st.linePoints with
    | nil => exact absurd h hne
    | cons a l => rfl
  constructor
  · intro hclose
    have hcl : isPointClose (snapToGridCoordinate snapFlag g raw.x)
        (snapToGridCoordinate snapFlag g raw.y) s.x s.y = true := by
      rw [isPointClose]
      exact decide_eq_true hclose
    simp only [lineMouseDown, hempty, Bool.false_eq_true, if_false, hs, hcl, if_true]
  · intro hfar
    have hcl : isPointClose (snapToGridCoordinate snapFlag g raw.x)
        (snapToGridCoordinate snapFlag g raw.y) s.x s.y = false := by
      rw [isPointClose]
      exact decide_eq_false (not_lt.mpr hfar)
    constructor
    · intro hdup
      simp only [lineMouseDown, hempty, Bool.false_eq_true, if_false, hs, hcl, hlast,
        if_pos hdup]
    · intro hsep
      simp only [lineMouseDown, hempty, Bool.false_eq_true, if_false, hs, hcl, hlast,
        if_neg (not_lt.mpr hsep)]

/-- C8 witness: a far click (distance 100 from start and previous vertex)
is appended. -/
theorem line_click_transitions_witness :
    ((15 : ℚ) * 15 ≤ calculateDistanceSq 100 0 0 0) ∧
    lineMouseDown false 20 ⟨[⟨0, 0⟩], some ⟨0, 0⟩, [], []⟩ ⟨100, 0⟩ =
      { linePoints := [⟨0, 0⟩, ⟨100, 0⟩], lineStartPoint := some ⟨0, 0⟩,
        rooms := [], toasts := [] } := by
  have h := line_click_transitions false 20 ⟨[⟨0, 0⟩], some ⟨0, 0⟩, [], []⟩
    ⟨0, 0⟩ ⟨0, 0⟩ ⟨100, 0⟩ (by simp) rfl (by simp) 100 0
    (by rw [snapToGridCoordinate]; rfl) (by rw [snapToGridCoordinate]; rfl)
  refine ⟨by norm_num [calculateDistanceSq], ?_⟩
  have h2 := (h.2 (by norm_num [calculateDistanceSq])).2 (by norm_num [calculateDistanceSq])
  simpa using h2

/-- C9: `calculatePolygonCentroid` is total — a null list gives `{x:0,y:0}`
(`calculatePolygonCentroidOpt`), the empty list gives `{x:0,y:0}`, and the
instrumented variant whose two data-dependent divisions fail on a zero
divisor never fails and agrees with the plain function, i.e. neither the
division by `points.length` nor the division by `6 * area` can divide by
zero. -/
theorem centroid_totality :
    calculatePolygonCentroidOpt none = ⟨0, 0⟩ ∧
    calculatePolygonCentroidOpt (some []) = ⟨0, 0⟩ ∧
    ∀ points : List Point,
      calculatePolygonCentroidChecked points = some (calculatePolygonCentroid points) := by
  refine ⟨rfl, by simp [calculatePolygonCentroidOpt, calculatePolygonCentroid], ?_⟩
  intro pts
  by_cases h3 : pts.length < 3
  · by_cases h0 : 0 < pts.length
    · have hne : ((pts.length : ℚ)) ≠ 0 := by
        exact_mod_cast Nat.pos_iff_ne_zero.mp h0
      simp only [calculatePolygonCentroidChecked, calculatePolygonCentroid, if_pos h3,
        if_pos h0, checkedDiv, if_neg hne, Option.bind_eq_bind, Option.some_bind,
        arithmeticMean]
    · simp only [calculatePolygonCentroidChecked, calculatePolygonCentroid, if_pos h3,
        if_neg h0]
  · by_cases heps : |(shoelace (closeRing pts)).1 / 2| < 1 / 1000
    · have h0 : 0 < pts.length := by omega
      have hne : ((pts.length : ℚ)) ≠ 0 := by
        exact_mod_cast Nat.pos_iff_ne_zero.mp h0
      simp only [calculatePolygonCentroidChecked, calculatePolygonCentroid, if_neg h3,
        if_pos heps, checkedDiv, if_neg hne, Option.bind_eq_bind, Option.some_bind,
        arithmeticMean]
    · have harea : (6 : ℚ) * ((shoelace (closeRing pts)).1 / 2) ≠ 0 := by
        intro hz
        rcases mul_eq_zero.mp hz with h6 | hzero
        · norm_num at h6
        · rw [hzero] at heps
          norm_num at heps
      simp only [calculatePolygonCentroidChecked, calculatePolygonCentroid, if_neg h3,
        if_neg heps, checkedDiv, if_neg harea, Option.bind_eq_bind, Option.some_bind]
      split <;> rfl

/-- C4: `calculatePolygonCentroid` returns the arithmetic mean for fewer
than 3 points, and for 3 or more points whenever the absolute signed
shoelace area is below the 0.001 epsilon; otherwise it returns the
area-weighted centroid (moment sums over `6 × signedArea`), possibly
corrected by the interior search. -/
theorem centroid_branch_rule (points : List Point) :
    (points.length < 3 → calculatePolygonCentroid points = arithmeticMean points) ∧
    (3 ≤ points.length → |signedArea points| < 1 / 1000 →
      calculatePolygonCentroid points = arithmeticMean points) ∧
    (3 ≤ points.length → 1 / 1000 ≤ |signedArea points| →
      calculatePolygonCentroid points =
        if isPointInPolygon (areaWeightedCentroid points).x (areaWeightedCentroid points).y points
        then areaWeightedCentroid points
        else interiorSearch points (areaWeightedCentroid points).x
          (areaWeightedCentroid points).y) := by
  refine ⟨?_, ?_, ?_⟩
  · intro h
    rw [calculatePolygonCentroid, if_pos h]
    by_cases h0 : 0 < points.length
    · rw [if_pos h0]
    · rw [if_neg h0]
      have hnil : points = [] := List.length_eq_zero.mp (by omega)
      subst hnil
      show (⟨0, 0⟩ : Point) = arithmeticMean []
      simp [arithmeticMean]
  · intro h3 heps
    rw [signedArea] at heps
    simp only [calculatePolygonCentroid, shoelace_eq, if_neg (not_lt.mpr h3), if_pos heps]
  · intro h3 heps
    have hneg : ¬(|crossSum (closeRing points) / 2| < 1 / 1000) := by
      rw [signedArea] at heps
      exact not_lt.mpr heps
    simp only [calculatePolygonCentroid, shoelace_eq, if_neg (not_lt.mpr h3), if_neg hneg,
      areaWeightedCentroid, signedArea]

/-- C4 witness: the degenerate-count clause at a 2-point list. -/
theorem centroid_branch_rule_witness :
    ([(⟨0, 0⟩ : Point), ⟨4, 0⟩].length < 3) ∧
    calculatePolygonCentroid [(⟨0, 0⟩ : Point), ⟨4, 0⟩]
      = arithmeticMean [(⟨0, 0⟩ : Point), ⟨4, 0⟩] :=
  ⟨by norm_num, (centroid_branch_rule [⟨0, 0⟩, ⟨4, 0⟩]).1 (by norm_num)⟩

/-- C10: explicitly closing the ring (appending a copy of the first point)
does not change `calculatePolygonCentroid`, for any list of at least 3
points whose absolute signed shoelace area is at least 0.001 and whose
area-weighted centroid passes the `isPointInPolygon` test. -/
theorem centroid_ring_closing_invariant (p : Point) (t : List Point)
    (hlen : 3 ≤ (p :: t).length)
    (harea : 1 / 1000 ≤ |signedArea (p :: t)|)
    (hin : isPointInPolygon (areaWeightedCentroid (p :: t)).x (areaWeightedCentroid (p :: t)).y
        (p :: t) = true) :
    calculatePolygonCentroid ((p :: t) ++ [p]) = calculatePolygonCentroid (p :: t) := by
  have hL : (p :: t).getLast? = some (t.getLastD p) := by
    rw [List.getLast?_cons, List.getLastD_eq_getLast?]
  have hsums : crossSum (closeRing ((p :: t) ++ [p])) = crossSum (closeRing (p :: t)) ∧
      momentXSum (closeRing ((p :: t) ++ [p])) = momentXSum (closeRing (p :: t)) ∧
      momentYSum (closeRing ((p :: t) ++ [p])) = momentYSum (closeRing (p :: t)) := by
    rw [closeRing_concat_head]
    by_cases hc : p.x ≠ (t.getLastD p).x ∨ p.y ≠ (t.getLastD p).y
    · have hclose : closeRing (p :: t) = (p :: t) ++ [p] := by
        simp only [closeRing, List.head?_cons, hL]
        rw [if_pos hc]
      rw [hclose]
      exact ⟨rfl, rfl, rfl⟩
    · have hpl : t.getLastD p = p := by
        push_neg at hc
        exact (Point.ext hc.1 hc.2).symm
      have hclose : closeRing (p :: t) = p :: t := by
        simp only [closeRing, List.head?_cons, hL]
        rw [if_neg hc]
      rw [hclose, crossSum_concat, momentXSum_concat, momentYSum_concat, hpl]
      have hz : crossTerm (p, p) = 0 := sub_self _
      rw [hz]
      refine ⟨by ring, by ring, by ring⟩
  obtain ⟨hA, hX, hY⟩ := hsums
  have hlen1 : ¬((p :: t).length < 3) := not_lt.mpr hlen
  have hlen2 : ¬(((p :: t) ++ [p]).length < 3) := by
    rw [List.length_append, List.length_cons]
    rw [List.length_cons] at hlen
    omega
  have hepsneg : ¬(|crossSum (closeRing (p :: t)) / 2| < 1 / 1000) := by
    rw [signedArea] at harea
    exact not_lt.mpr harea
  have hepsneg2 : ¬(|crossSum (closeRing ((p :: t) ++ [p])) / 2| < 1 / 1000) := by
    rw [hA]
    exact hepsneg
  have hin2 : isPointInPolygon
      (momentXSum (closeRing (p :: t)) / (6 * (crossSum (closeRing (p :: t)) / 2)))
      (momentYSum (closeRing (p :: t)) / (6 * (crossSum (closeRing (p :: t)) / 2)))
      (p :: t) = true := by
    simpa only [areaWeightedCentroid, signedArea] using hin
  simp only [calculatePolygonCentroid, shoelace_eq, if_neg hlen1, if_neg hlen2, hA, hX, hY,
    if_neg hepsneg, if_neg hepsneg2]
  rw [isPointInPolygon_append_head]
  rw [if_pos hin2, if_pos hin2]

/-- C10 witness: the right triangle (0,0), (100,0), (100,100). -/
theorem centroid_ring_closing_invariant_witness :
    (3 ≤ [(⟨0, 0⟩ : Point), ⟨100, 0⟩, ⟨100, 100⟩].length) ∧
    ((1 : ℚ) / 1000 ≤ |signedArea [(⟨0, 0⟩ : Point), ⟨100, 0⟩, ⟨100, 100⟩]|) ∧
    calculatePolygonCentroid ([(⟨0, 0⟩ : Point), ⟨100, 0⟩, ⟨100, 100⟩] ++ [⟨0, 0⟩])
      = calculatePolygonCentroid [(⟨0, 0⟩ : Point), ⟨100, 0⟩, ⟨100, 100⟩] := by
  have h1 : (3 : ℕ) ≤ [(⟨0, 0⟩ : Point), ⟨100, 0⟩, ⟨100, 100⟩].length := by norm_num
  have h2 : (1 : ℚ) / 1000 ≤ |signedArea [(⟨0, 0⟩ : Point), ⟨100, 0⟩, ⟨100, 100⟩]| := by
    norm_num [signedArea, closeRing, crossSum, adjPairs, crossTerm, abs_of_nonneg]
  have h3 : isPointInPolygon
      (areaWeightedCentroid [(⟨0, 0⟩ : Point), ⟨100, 0⟩, ⟨100, 100⟩]).x
      (areaWeightedCentroid [(⟨0, 0⟩ : Point), ⟨100, 0⟩, ⟨100, 100⟩]).y
      [(⟨0, 0⟩ : Point), ⟨100, 0⟩, ⟨100, 100⟩] = true := by
    norm_num [areaWeightedCentroid, signedArea, closeRing, crossSum, momentXSum, momentYSum,
      adjPairs, crossTerm, isPointInPolygon, rayPairs, edgeCross]
  exact ⟨h1, h2, centroid_ring_closing_invariant ⟨0, 0⟩ [⟨100, 0⟩, ⟨100, 100⟩] h1 h2 h3⟩

/-- C1 counterexample: a thin simple chevron (4 pairwise-distinct vertices,
no edge crossings) whose |shoelace area| = 1/2000 falls below the 0.001
epsilon, so `calculatePolygonCentroid` returns the arithmetic mean with no
containment check — and that mean lies in the concave notch, outside the
polygon: `isPointInPolygon` rejects the returned point. -/
theorem centroid_returns_outside_point_on_simple_polygon :
    isSimplePolygon [⟨0, 0⟩, ⟨10, 1/10000⟩, ⟨20, 0⟩, ⟨10, 1/20000⟩] = true ∧
    isPointInPolygon
      (calculatePolygonCentroid [⟨0, 0⟩, ⟨10, 1/10000⟩, ⟨20, 0⟩, ⟨10, 1/20000⟩]).x
      (calculatePolygonCentroid [⟨0, 0⟩, ⟨10, 1/10000⟩, ⟨20, 0⟩, ⟨10, 1/20000⟩]).y
      [⟨0, 0⟩, ⟨10, 1/10000⟩, ⟨20, 0⟩, ⟨10, 1/20000⟩] = false := by
  have hc : calculatePolygonCentroid [⟨0, 0⟩, ⟨10, 1/10000⟩, ⟨20, 0⟩, ⟨10, 1/20000⟩]
      = ⟨10, 3/80000⟩ := by
    norm_num [calculatePolygonCentroid, closeRing, shoelace, adjPairs, crossTerm,
      arithmeticMean, abs_of_nonneg, abs_of_pos]
  refine ⟨?_, ?_⟩
  · norm_num [isSimplePolygon, segIntersect, onSeg, orient, List.range_succ]
  · rw [hc]
    norm_num [isPointInPolygon, rayPairs, edgeCross]

/-- C1 (amended): the end-to-end triangle scenario holds — clicking (0,0),
(100,0), (100,100) and then within 15 px of (0,0) closes a 3-vertex
triangle room, and its centroid (200/3, 100/3) satisfies
`isPointInPolygon` and lies strictly inside the triangle (`0 < y < x <
100`); the containment property is only expected-case in general and
fails for some degenerate-area simple polygons. -/
theorem triangle_scenario_centroid_strictly_inside :
    ((lineMouseDown true 20 (lineMouseDown true 20 (lineMouseDown true 20
        (lineMouseDown true 20 ⟨[], none, [], []⟩ ⟨0, 0⟩) ⟨100, 0⟩) ⟨100, 100⟩) ⟨4, 4⟩).rooms).map
      PolyRoom.points = [[⟨0, 0⟩, ⟨100, 0⟩, ⟨100, 100⟩]] ∧
    calculatePolygonCentroid [⟨0, 0⟩, ⟨100, 0⟩, ⟨100, 100⟩] = ⟨200/3, 100/3⟩ ∧
    isPointInPolygon (200/3) (100/3) [⟨0, 0⟩, ⟨100, 0⟩, ⟨100, 100⟩] = true ∧
    ((0 : ℚ) < 100/3 ∧ (100 : ℚ)/3 < 200/3 ∧ (200 : ℚ)/3 < 100) := by
  have s0 : snapToGridCoordinate true 20 0 = 0 := by with_unfolding_all decide
  have s100 : snapToGridCoordinate true 20 100 = 100 := by with_unfolding_all decide
  have s4 : snapToGridCoordinate true 20 4 = 0 := by with_unfolding_all decide
  refine ⟨?_, ?_, ?_, by norm_num⟩
  · norm_num [lineMouseDown, completeLineRoom, isPointClose, calculateDistanceSq,
      listMin, listMax, s0, s100, s4]
  · norm_num [calculatePolygonCentroid, closeRing, shoelace, adjPairs, crossTerm,
      isPointInPolygon, rayPairs, edgeCross, abs_of_nonneg, abs_of_pos]
  · norm_num [isPointInPolygon, rayPairs, edgeCross]

end AeroNexa
